import Mathlib

/-!
Verification development for the run-orchestration core of the `pod-xt`
repository (`src/podx/ui/run_manager.py` and `src/podx/ui/api.py`).

The Python code is shallowly embedded: the in-memory registry of a
`RunManager` becomes an insertion-ordered list of `RunState` records (the
values of the Python dict, whose keys are the `run_id` fields), each mutating
method becomes a pure state-transformer, wall-clock reads (`datetime.now()`)
and UUID generation become explicit parameters, and the history file becomes
an explicit `Option (List RawRun)` value (`none` models an unreadable or
corrupt file).  Timestamps are modelled as `Nat` tick counts; ISO-format
serialization of a timestamp is modelled by its decimal string rendering
(an injective encoding with a partial decoder, matching
`datetime.isoformat` / `datetime.fromisoformat`).
-/

/-- Modelled from the spec: `PipelineConfig` lives in `podx.domain`, which is
not part of the sources under verification; §3 of the spec describes it only
as "the immutable configuration snapshot supplied at creation" and §9 as a
dict-shaped key/value structure, so it is modelled as an opaque key/value
snapshot.  No verified operation inspects it. -/
structure PipelineConfig where
  fields : List (String × String)
deriving Repr, DecidableEq

/-- Modelled from the spec: `PipelineResult` lives in `podx.domain`, which is
not part of the sources under verification; §6 of the spec gives its shape as
`Result{artifacts: map<name,location>, steps_completed: ordered list<string>,
duration: float, errors: list<string>}`, and `run_manager.py` additionally
serializes a `workdir` path.  The float duration is modelled as a rational. -/
structure PipelineResult where
  workdir : String
  steps_completed : List String
  artifacts : List (String × String)
  duration : Rat
  errors : List String
deriving Repr, DecidableEq

/-- State of a pipeline run (`RunState`, run_manager.py lines 16-27).  The
`progress` dict (stage -> status) is an insertion-ordered association list
with unique keys, like a Python dict. -/
structure RunState where
  run_id : String
  config : PipelineConfig
  status : String
  progress : List (String × String)
  result : Option PipelineResult
  error : Option String
  started_at : Nat
  completed_at : Option Nat
  notion_url : Option String
deriving Repr, DecidableEq

/-- Python dict assignment `d[k] = v`: an existing key keeps its position and
gets the new value, a new key is appended at the end. -/
def dictSet (d : List (String × String)) (k v : String) : List (String × String) :=
  if d.any (fun p => p.1 = k) then
    d.map (fun p => if p.1 = k then (k, v) else p)
  else
    d ++ [(k, v)]

/-- Mutation of the single record held under a dict key: the first (and, for
well-formed registries, only) matching record is replaced, all others kept. -/
def updateFirst (p : RunState → Bool) (f : RunState → RunState) : List RunState → List RunState
  | [] => []
  | r :: rs => if p r then f r :: rs else r :: updateFirst p f rs

/-- The statuses counted as active by `create_run` (run_manager.py line 108). -/
def isActiveStatus (s : String) : Bool :=
  s = "pending" || s = "running"

/-- The statuses treated as terminal by `update_run_status`
(run_manager.py line 150). -/
def isTerminalStatus (s : String) : Bool :=
  s = "completed" || s = "failed" || s = "canceled"

/-- The in-memory state of a `RunManager` (run_manager.py lines 69-91): the
configured concurrency ceiling, the history bound, and the registry of
active runs (`_active_runs`), as the insertion-ordered list of dict values. -/
structure RunManager where
  max_concurrent : Nat
  max_history : Nat
  active_runs : List RunState
deriving Repr, DecidableEq

/-- Lookup of `_active_runs.get(run_id)` (run_manager.py lines 129-138). -/
def get_run (m : RunManager) (run_id : String) : Option RunState :=
  m.active_runs.find? (fun r => r.run_id = run_id)

/-- Python dict assignment `_active_runs[run_id] = run_state`. -/
def registrySet (l : List RunState) (r : RunState) : List RunState :=
  if l.any (fun x => x.run_id = r.run_id) then
    updateFirst (fun x => x.run_id = r.run_id) (fun _ => r) l
  else
    l ++ [r]

/-- Number of records whose status is `pending` or `running`
(run_manager.py lines 106-109). -/
def activeCount (m : RunManager) : Nat :=
  (m.active_runs.filter (fun r => isActiveStatus r.status)).length

/-- The `RunManager.create_run` method (run_manager.py lines 93-127).  The
fresh UUID and the clock are passed in as `newId` and `now`; the raised
`RuntimeError` becomes the `Except.error` case. -/
def create_run (m : RunManager) (config : PipelineConfig) (newId : String) (now : Nat) :
    Except String (RunManager × String) :=
  if activeCount m ≥ m.max_concurrent then
    .error ("Maximum concurrent runs (" ++ toString m.max_concurrent ++ ") reached. " ++
      "Please wait for current runs to complete.")
  else
    let run_state : RunState :=
      { run_id := newId
        config := config
        status := "pending"
        progress := []
        result := none
        error := none
        started_at := now
        completed_at := none
        notion_url := none }
    .ok ({ m with active_runs := registrySet m.active_runs run_state }, newId)

/-- The `RunManager.update_run_status` method (run_manager.py lines 140-152):
unconditionally overwrites the status of an existing record, stamping
`completed_at` when the new status is terminal; a missing id is a no-op. -/
def update_run_status (m : RunManager) (run_id status : String) (now : Nat) : RunManager :=
  let runs := updateFirst (fun r => r.run_id = run_id)
    (fun r =>
      { r with
        status := status
        completed_at := if isTerminalStatus status then some now else r.completed_at })
    m.active_runs
  { m with active_runs := runs }

/-- The `RunManager.update_run_progress` method (run_manager.py lines
154-165): writes `progress[stage] = status` on an existing record, with no
check of the record's current status; a missing id is a no-op. -/
def update_run_progress (m : RunManager) (run_id stage status : String) : RunManager :=
  let runs := updateFirst (fun r => r.run_id = run_id)
    (fun r => { r with progress := dictSet r.progress stage status })
    m.active_runs
  { m with active_runs := runs }

/-- The `RunManager.set_run_result` method (run_manager.py lines 167-179):
stores the result, sets status to `completed` when the result's error list is
empty and to `failed` otherwise, and stamps `completed_at`; a missing id is a
no-op. -/
def set_run_result (m : RunManager) (run_id : String) (result : PipelineResult) (now : Nat) :
    RunManager :=
  let runs := updateFirst (fun r => r.run_id = run_id)
    (fun r =>
      { r with
        result := some result
        status := if result.errors.isEmpty then "completed" else "failed"
        completed_at := some now })
    m.active_runs
  { m with active_runs := runs }

/-- The `RunManager.set_run_error` method (run_manager.py lines 181-193):
records the error message, sets status to `failed` and stamps `completed_at`;
a missing id is a no-op. -/
def set_run_error (m : RunManager) (run_id error : String) (now : Nat) : RunManager :=
  let runs := updateFirst (fun r => r.run_id = run_id)
    (fun r => { r with error := some error, status := "failed", completed_at := some now })
    m.active_runs
  { m with active_runs := runs }

/-- The `RunManager.set_notion_url` method (run_manager.py lines 195-205):
records the external link on an existing record; a missing id is a no-op. -/
def set_notion_url (m : RunManager) (run_id notion_url : String) : RunManager :=
  let runs := updateFirst (fun r => r.run_id = run_id)
    (fun r => { r with notion_url := some notion_url })
    m.active_runs
  { m with active_runs := runs }

/-- The `RunManager.cancel_run` method (run_manager.py lines 207-233),
restricted to its registry effect (the asyncio task-cancellation side channel
has no registry footprint): a missing id or a record whose status is not
`pending`/`running` yields `false` and leaves the registry unchanged; an
active record is stamped `canceled`/`completed_at` and `true` is returned. -/
def cancel_run (m : RunManager) (run_id : String) (now : Nat) : RunManager × Bool :=
  match get_run m run_id with
  | none => (m, false)
  | some r =>
    if isActiveStatus r.status then
      let runs := updateFirst (fun x => x.run_id = run_id)
        (fun x => { x with status := "canceled", completed_at := some now })
        m.active_runs
      ({ m with active_runs := runs }, true)
    else
      (m, false)

/-- The `POST /api/runs/run_id/cancel` route (api.py lines 281-291): a
`false` from `cancel_run` becomes an HTTP 400 error, a `true` the success
payload. -/
def cancel_run_route (m : RunManager) (run_id : String) (now : Nat) :
    RunManager × Except String String :=
  let res := cancel_run m run_id now
  if res.2 then (res.1, .ok "canceled") else (res.1, .error "Run cannot be canceled")

/-- Head matching of a character sequence: the first list occurs at the start
of the second. -/
def matchesAt : List Char → List Char → Bool
  | [], _ => true
  | _ :: _, [] => false
  | c :: cs, d :: ds => c = d && matchesAt cs ds

/-- Containment of a contiguous character sequence anywhere in a list. -/
def containsChars (needle : List Char) : List Char → Bool
  | [] => needle.isEmpty
  | d :: ds => matchesAt needle (d :: ds) || containsChars needle ds

/-- Python substring containment `needle in hay`. -/
def strContains (hay needle : String) : Bool :=
  containsChars needle.toList hay.toList

/-- Python `str.lower()`, modelled character-wise (the texts involved are
ASCII, where `status.lower()` is exactly a character-wise lowering). -/
def lowerString (s : String) : String :=
  String.mk (s.data.map Char.toLower)

/-- The static pipeline-step to UI-stage table of `progress_callback`
(api.py lines 168-178). -/
def stage_map : List (String × String) :=
  [("fetch", "fetch"), ("transcode", "transcode"), ("transcribe", "transcribe"),
    ("preprocess", "preprocess"), ("align", "preprocess"), ("diarize", "diarize"),
    ("deepcast", "deepcast"), ("export", "export"), ("notion", "notion")]

/-- Stage mapping `stage_map.get(step, step)` (api.py line 179): unknown step
names pass through unchanged. -/
def map_stage (step : String) : String :=
  match stage_map.lookup step with
  | some s => s
  | none => step

/-- Free-text status classification of `progress_callback` (api.py lines
181-190): case-insensitive substring matching, first matching branch wins,
unrecognized text defaults to `started`. -/
def normalize_status (status : String) : String :=
  let status_lower := lowerString status
  if strContains status_lower "started" || strContains status_lower "fetching" ||
      strContains status_lower "transcoding" || strContains status_lower "transcribing" then
    "started"
  else if strContains status_lower "completed" || strContains status_lower "using existing" then
    "completed"
  else if strContains status_lower "failed" || strContains status_lower "error" then
    "failed"
  else
    "started"

/-- The normalized (stage, status) event produced from one raw callback
(api.py lines 166-192): exactly one pair per raw (step, text) pair. -/
def normalize_event (step status : String) : String × String :=
  (map_stage step, normalize_status status)

/-- Registry effect of one invocation of `progress_callback` (api.py lines
166-193): the normalized event is written into the run's progress mapping
with no check of the run's current status.  (`_send_progress`, the
broadcaster side, does not touch the registry.) -/
def progress_callback (m : RunManager) (run_id step status : String) : RunManager :=
  update_run_progress m run_id (map_stage step) (normalize_status status)

/-- Outcome of the awaited pipeline call inside `_execute_pipeline`
(api.py lines 195-227): a returned result, a raised fault, or a cooperative
cancellation. -/
inductive PipelineOutcome where
  | ok (result : PipelineResult)
  | fault (msg : String)
  | canceled
deriving Repr, DecidableEq

/-- Registry effect of the outcome handling of `_execute_pipeline` (api.py
lines 199-227): on a returned result `set_run_result` runs, then the
opportunistic Notion-URL extraction (a filesystem read, abstracted as the
`notionUrl` parameter) may run `set_notion_url`; on a raised fault
`set_run_error` runs; on cancellation the status is set to `canceled`.
The websocket sends and the history save have no registry footprint. -/
def execute_pipeline_outcome (m : RunManager) (run_id : String) (outcome : PipelineOutcome)
    (notionUrl : Option String) (now : Nat) : RunManager :=
  match outcome with
  | .ok result =>
    let m1 := set_run_result m run_id result now
    match notionUrl with
    | some u => set_notion_url m1 run_id u
    | none => m1
  | .fault msg => set_run_error m run_id msg now
  | .canceled => update_run_status m run_id "canceled" now

/-- A message pushed over a run's websocket (api.py lines 239-243 and
522-526). -/
structure WsMessage where
  stage : String
  status : String
  progress : List (String × String)
deriving Repr, DecidableEq

/-- The messages sent synchronously by `websocket_endpoint` on subscribe,
before the receive loop is entered (api.py lines 517-526): one snapshot of
the run's current status and full progress mapping when the run exists,
nothing otherwise. -/
def websocket_on_connect (m : RunManager) (run_id : String) : List WsMessage :=
  match get_run m run_id with
  | none => []
  | some r => [{ stage := "connected", status := r.status, progress := r.progress }]

/-- A serialized result dict as read back from the history file
(`_dict_to_run_state`, run_manager.py lines 328-338): `workdir` is a required
key, the remaining keys default when absent. -/
structure RawResult where
  workdir : Option String
  steps_completed : List String
  artifacts : List (String × String)
  duration : Rat
  errors : List String
deriving Repr, DecidableEq

/-- A serialized run dict as read back from the history file
(`_dict_to_run_state`, run_manager.py lines 322-356).  `Option` fields model
keys that may be absent (or, for `result`, Python-falsy); timestamps are kept
as strings whose decoding may fail, modelling `datetime.fromisoformat`. -/
structure RawRun where
  run_id : Option String
  config : List (String × String)
  status : Option String
  progress : List (String × String)
  result : Option RawResult
  error : Option String
  started_at : Option String
  completed_at : Option String
  notion_url : Option String
deriving Repr, DecidableEq

/-- Accumulating decimal decoder for the modelled timestamp encoding:
fails on any non-digit character. -/
def digitsToNat (acc : Nat) : List Char → Option Nat
  | [] => some acc
  | c :: cs => if c.isDigit then digitsToNat (acc * 10 + (c.toNat - 48)) cs else none

/-- Partial decoder of a serialized timestamp, modelling
`datetime.fromisoformat`: the empty string and any non-numeric string fail. -/
def parseTick (s : String) : Option Nat :=
  match s.data with
  | [] => none
  | l => digitsToNat 0 l

/-- The `RunManager._dict_to_run_state` method (run_manager.py lines
322-356): `none` models the exceptions (`KeyError` on a missing `run_id`,
`status`, `started_at` or `workdir` key, `ValueError` on an unparsable
timestamp) that make `_load_history` skip the record.  The modelled
`PipelineConfig` constructor is total, so config conversion cannot fail. -/
def dict_to_run_state (d : RawRun) : Option RunState := do
  let rid ← d.run_id
  let st ← d.status
  let result ← match d.result with
    | none => some none
    | some rr => do
      let wd ← rr.workdir
      some (some { workdir := wd, steps_completed := rr.steps_completed,
                   artifacts := rr.artifacts, duration := rr.duration, errors := rr.errors })
  let startedStr ← d.started_at
  let started ← parseTick startedStr
  let completed ← match d.completed_at with
    | none => some none
    | some s => if s = "" then some none else (parseTick s).map some
  some { run_id := rid, config := { fields := d.config }, status := st,
         progress := d.progress, result := result, error := d.error,
         started_at := started, completed_at := completed, notion_url := d.notion_url }

/-- The `RunManager._load_history` method (run_manager.py lines 292-313):
`none` models a missing, unreadable or corrupt store file (treated as empty
with a logged warning); a record whose parse fails is skipped individually
while the rest are kept. -/
def load_history (file : Option (List RawRun)) : List RunState :=
  match file with
  | none => []
  | some raws => raws.filterMap dict_to_run_state

/-- The in-memory core of `RunManager.save_to_history` (run_manager.py lines
272-290), between the `_load_history` read and the `_save_history` write:
any record with the appended run's id is removed, the run is inserted at the
front, and the list is truncated to `max_history`. -/
def save_to_history (history : List RunState) (run : RunState) (max_history : Nat) :
    List RunState :=
  let filtered := history.filter (fun r => r.run_id ≠ run.run_id)
  (run :: filtered).take max_history

/-- Python-descending order on creation time: `a` may come before `b` when
`b.started_at ≤ a.started_at` (run_manager.py line 260). -/
def runLe (a b : RunState) : Prop := b.started_at ≤ a.started_at

instance : DecidableRel runLe := fun a b => Nat.decLe b.started_at a.started_at

instance : IsTotal RunState runLe := ⟨fun a b => Nat.le_total b.started_at a.started_at⟩

instance : IsTrans RunState runLe := ⟨fun _ _ _ h1 h2 => Nat.le_trans h2 h1⟩

/-- Deduplication loop of `list_recent_runs` (run_manager.py lines 262-268):
keeps the first record seen for each run id. -/
def dedupById (seen : List String) : List RunState → List RunState
  | [] => []
  | r :: rs =>
    if r.run_id ∈ seen then dedupById seen rs
    else r :: dedupById (r.run_id :: seen) rs

/-- The effective limit of `list_recent_runs` (run_manager.py line 253):
Python `limit or self.max_history` treats both `None` and `0` as absent. -/
def effectiveLimit (m : RunManager) (limit : Option Nat) : Nat :=
  match limit with
  | none => m.max_history
  | some l => if l = 0 then m.max_history else l

/-- The `RunManager.list_recent_runs` method (run_manager.py lines 244-270):
active runs and loaded history are concatenated, stably sorted by
`started_at` descending (Python's stable sort is modelled by insertion
sort, which is extensionally the same stable sort), deduplicated keeping
the first copy per id, and truncated. -/
def list_recent_runs (m : RunManager) (file : Option (List RawRun)) (limit : Option Nat) :
    List RunState :=
  let all_runs := m.active_runs ++ load_history file
  let sorted_runs := List.insertionSort runLe all_runs
  (dedupById [] sorted_runs).take (effectiveLimit m limit)

/-- Success test for an `Except` value (the Python call either raises or
returns). -/
def exceptOk {ε α : Type} : Except ε α → Bool
  | .ok _ => true
  | .error _ => false

/-- An empty configuration snapshot, used for concrete test states. -/
def cfg0 : PipelineConfig := { fields := [] }

/-- A concrete running record with id `x` created at tick 0. -/
def runX : RunState :=
  { run_id := "x", config := cfg0, status := "running", progress := [],
    result := none, error := none, started_at := 0, completed_at := none, notion_url := none }

/-- A concrete serialized record that also carries id `x`, status `failed`
and a later creation tick `5`. -/
def rawX5 : RawRun :=
  { run_id := some "x", config := [], status := some "failed",
    progress := [], result := none, error := none, started_at := some "5",
    completed_at := none, notion_url := none }

/-- A concrete record already canceled, with one progress entry. -/
def runCanceled : RunState :=
  { run_id := "c1", config := cfg0, status := "canceled",
    progress := [("fetch", "started")], result := none, error := none,
    started_at := 2, completed_at := some 5, notion_url := none }

/-- A concrete pipeline result with an empty error list. -/
def resOk : PipelineResult :=
  { workdir := "w", steps_completed := ["fetch"], artifacts := [], duration := 1,
    errors := [] }

/-- A concrete pipeline result with a non-empty error list. -/
def resBad : PipelineResult :=
  { workdir := "w", steps_completed := [], artifacts := [], duration := 1,
    errors := ["deepcast failed"] }

/-- A concrete serialized record that parses. -/
def rawGood : RawRun :=
  { run_id := some "g", config := [], status := some "completed",
    progress := [("fetch", "completed")], result := none, error := none,
    started_at := some "3", completed_at := some "4", notion_url := none }

/-- A concrete malformed serialized record: its `run_id` key is missing, so
parsing fails. -/
def rawBad : RawRun :=
  { run_id := none, config := [], status := some "completed",
    progress := [], result := none, error := none,
    started_at := some "3", completed_at := none, notion_url := none }

/-- A registry at its concurrency ceiling, holding the single running
record `runX`. -/
def regX : RunManager := { max_concurrent := 1, max_history := 20, active_runs := [runX] }

/-- A registry holding only the canceled record `runCanceled`. -/
def regCanceled : RunManager :=
  { max_concurrent := 1, max_history := 20, active_runs := [runCanceled] }

/-- An empty registry. -/
def regEmpty : RunManager := { max_concurrent := 1, max_history := 20, active_runs := [] }

/-- Three completed records with distinct ids and descending creation times,
forming a full history store of capacity 3. -/
def runA3 : RunState :=
  { run_id := "a", config := cfg0, status := "completed", progress := [],
    result := none, error := none, started_at := 3, completed_at := some 4, notion_url := none }

/-- Second record of the concrete history store. -/
def runB2 : RunState :=
  { run_id := "b", config := cfg0, status := "completed", progress := [],
    result := none, error := none, started_at := 2, completed_at := some 3, notion_url := none }

/-- Third (oldest) record of the concrete history store. -/
def runC1 : RunState :=
  { run_id := "c", config := cfg0, status := "completed", progress := [],
    result := none, error := none, started_at := 1, completed_at := some 2, notion_url := none }

/-- A fresh record to append to the concrete history store. -/
def runD4 : RunState :=
  { run_id := "d", config := cfg0, status := "completed", progress := [],
    result := none, error := none, started_at := 4, completed_at := some 5, notion_url := none }

/-- The parse of `rawGood`, spelled out. -/
def goodParsed : RunState :=
  { run_id := "g", config := { fields := [] }, status := "completed",
    progress := [("fetch", "completed")], result := none, error := none,
    started_at := 3, completed_at := some 4, notion_url := none }

theorem updateFirst_eq_self (p : RunState → Bool) (f : RunState → RunState)
    (l : List RunState) (h : ∀ x ∈ l, ¬ p x = true) : updateFirst p f l = l := by
  induction l with
  | nil => rfl
  | cons x xs ih =>
    have hx : ¬ p x = true := h x (List.mem_cons_self _ _)
    simp only [updateFirst, if_neg hx]
    rw [ih (fun y hy => h y (List.mem_cons_of_mem _ hy))]

theorem find?_updateFirst (p : RunState → Bool) (f : RunState → RunState) (r : RunState)
    (hf : p (f r) = true) (l : List RunState) (h : l.find? p = some r) :
    (updateFirst p f l).find? p = some (f r) := by
  induction l with
  | nil => simp at h
  | cons x xs ih =>
    by_cases hx : p x = true
    · rw [List.find?_cons_of_pos _ hx] at h
      obtain rfl : x = r := Option.some.inj h
      simp only [updateFirst, if_pos hx]
      exact List.find?_cons_of_pos _ hf
    · rw [List.find?_cons_of_neg _ hx] at h
      simp only [updateFirst, if_neg hx]
      rw [List.find?_cons_of_neg _ hx]
      exact ih h

/-- C10: every registry mutator that takes a run identifier —
`update_run_status`, `update_run_progress`, `set_run_result`,
`set_run_error`, `set_notion_url` — is a silent no-op when called with an
identifier not present in the registry: being total functions they raise no
error and signal nothing, and the registry is returned entirely unchanged. -/
theorem claim_C10_missing_id_noop (m : RunManager) (rid stage st err u : String)
    (res : PipelineResult) (now : Nat) (h : get_run m rid = none) :
    update_run_status m rid st now = m ∧
    update_run_progress m rid stage st = m ∧
    set_run_result m rid res now = m ∧
    set_run_error m rid err now = m ∧
    set_notion_url m rid u = m := by
  have hfind : m.active_runs.find? (fun r => decide (r.run_id = rid)) = none := h
  have hall : ∀ x ∈ m.active_runs, ¬ (fun r : RunState => decide (r.run_id = rid)) x = true :=
    List.find?_eq_none.mp hfind
  refine ⟨?_, ?_, ?_, ?_, ?_⟩ <;>
    simp only [update_run_status, update_run_progress, set_run_result,
      set_run_error, set_notion_url, updateFirst_eq_self _ _ _ hall]

/-- C10 witness: the five mutators at a concrete registry and unknown id. -/
theorem claim_C10_missing_id_noop_witness :
    update_run_status regX "zz" "completed" 9 = regX ∧
    update_run_progress regX "zz" "fetch" "started" = regX ∧
    set_run_result regX "zz" resOk 9 = regX ∧
    set_run_error regX "zz" "boom" 9 = regX ∧
    set_notion_url regX "zz" "http" = regX :=
  claim_C10_missing_id_noop regX "zz" "fetch" "started" "boom" "http" resOk 9 (by decide)

/-- C9: for every run identifier with an existing record, a subscriber that
connects mid-run synchronously receives exactly one snapshot message
carrying the run's current status and its full progress mapping, before any
later events and even if no further event ever arrives. -/
theorem claim_C9_snapshot_on_subscribe (m : RunManager) (rid : String) (r : RunState)
    (h : get_run m rid = some r) :
    websocket_on_connect m rid =
      [{ stage := "connected", status := r.status, progress := r.progress }] ∧
    (websocket_on_connect m rid).length = 1 := by
  constructor <;> simp [websocket_on_connect, h]

/-- C9 witness: the snapshot at a concrete mid-run registry. -/
theorem claim_C9_snapshot_on_subscribe_witness :
    websocket_on_connect regX "x" =
      [{ stage := "connected", status := runX.status, progress := runX.progress }] ∧
    (websocket_on_connect regX "x").length = 1 :=
  claim_C9_snapshot_on_subscribe regX "x" runX (by decide)

theorem terminal_not_active (s : String) (h : isTerminalStatus s = true) :
    isActiveStatus s = false := by
  have hs : (s = "completed" ∨ s = "failed") ∨ s = "canceled" := by
    simpa [isTerminalStatus, Bool.or_eq_true, decide_eq_true_eq] using h
  rcases hs with (rfl | rfl) | rfl <;> rfl

/-- C2 counterexample: the registry `regCanceled` holds the record
`runCanceled`, already in terminal state `canceled`; yet a pipeline callback
arriving now is applied (the progress mapping changes), and `set_run_result`
even moves the status out of the terminal state to `completed`.  No status
check guards these mutators, so the claim is false as stated. -/
theorem claim_C2_counterexample :
    (get_run regCanceled "c1").map RunState.status = some "canceled" ∧
    progress_callback regCanceled "c1" "transcribe" "Transcribing audio" ≠ regCanceled ∧
    (get_run (progress_callback regCanceled "c1" "transcribe" "Transcribing audio") "c1").map
      RunState.progress = some [("fetch", "started"), ("transcribe", "started")] ∧
    (get_run (set_run_result regCanceled "c1" resOk 9) "c1").map RunState.status =
      some "completed" := by
  decide

/-- C2 amended: only cancellation is guarded by the record's current status.
A terminal record is never changed by `cancel_run`, which signals
not-cancelable; but `update_run_status`, `update_run_progress` (hence a
pipeline callback arriving after cancellation is recorded, which is applied
rather than ignored) and `set_run_result` mutate an existing record whatever
its status: no check that the status is still `running` is made before a
progress update is applied. -/
theorem claim_C2_amended (m : RunManager) (rid step text st : String) (r : RunState)
    (res : PipelineResult) (now : Nat) (h : get_run m rid = some r)
    (hterm : isTerminalStatus r.status = true) :
    cancel_run m rid now = (m, false) ∧
    get_run (progress_callback m rid step text) rid =
      some { r with progress := dictSet r.progress (map_stage step) (normalize_status text) } ∧
    get_run (update_run_status m rid st now) rid =
      some
        { r with
          status := st,
          completed_at := if isTerminalStatus st then some now else r.completed_at } ∧
    get_run (set_run_result m rid res now) rid =
      some
        { r with
          result := some res,
          status := if res.errors.isEmpty then "completed" else "failed",
          completed_at := some now } := by
  have hact : isActiveStatus r.status = false := terminal_not_active _ hterm
  have h' : m.active_runs.find? (fun x => decide (x.run_id = rid)) = some r := h
  have hid : r.run_id = rid :=
    of_decide_eq_true (List.find?_some (p := fun x : RunState => decide (x.run_id = rid)) h')
  refine ⟨?_, ?_, ?_, ?_⟩
  · simp [cancel_run, h, hact]
  · exact find?_updateFirst _
      (fun x => { x with progress := dictSet x.progress (map_stage step) (normalize_status text) })
      r (decide_eq_true (show _ = rid from hid)) m.active_runs h'
  · exact find?_updateFirst _
      (fun x =>
        { x with
          status := st,
          completed_at := if isTerminalStatus st then some now else x.completed_at })
      r (decide_eq_true (show _ = rid from hid)) m.active_runs h'
  · exact find?_updateFirst _
      (fun x =>
        { x with
          result := some res,
          status := if res.errors.isEmpty then "completed" else "failed",
          completed_at := some now })
      r (decide_eq_true (show _ = rid from hid)) m.active_runs h'

/-- C2 amended witness: the guarded and unguarded mutators at the concrete
canceled record. -/
theorem claim_C2_amended_witness :
    cancel_run regCanceled "c1" 9 = (regCanceled, false) ∧
    get_run (progress_callback regCanceled "c1" "align" "ok") "c1" =
      some
        { runCanceled with
          progress :=
            dictSet runCanceled.progress (map_stage "align") (normalize_status "ok") } ∧
    get_run (update_run_status regCanceled "c1" "running" 9) "c1" =
      some
        { runCanceled with
          status := "running",
          completed_at := if isTerminalStatus "running" then some 9
            else runCanceled.completed_at } ∧
    get_run (set_run_result regCanceled "c1" resBad 9) "c1" =
      some
        { runCanceled with
          result := some resBad,
          status := if resBad.errors.isEmpty then "completed" else "failed",
          completed_at := some 9 } :=
  claim_C2_amended regCanceled "c1" "align" "ok" "running" runCanceled resBad 9
    (by decide) (by decide)

/-- C3: cancellation is idempotent-failing.  A run whose status is `pending`
or `running` is canceled exactly once: the first request returns success and
stamps status `canceled` with the completion timestamp, the second request on
the same run fails (and at the route level signals not-cancelable); a
request against a record already in a terminal state fails rather than
silently succeeding, leaving the registry unchanged. -/
theorem claim_C3_cancel_idempotent_failing (m : RunManager) (rid : String) (r : RunState)
    (now now2 : Nat) (h : get_run m rid = some r) :
    (isActiveStatus r.status = true →
      (cancel_run m rid now).2 = true ∧
      get_run (cancel_run m rid now).1 rid =
        some { r with status := "canceled", completed_at := some now } ∧
      cancel_run (cancel_run m rid now).1 rid now2 = ((cancel_run m rid now).1, false) ∧
      (cancel_run_route (cancel_run m rid now).1 rid now2).2 =
        .error "Run cannot be canceled") ∧
    (isTerminalStatus r.status = true →
      cancel_run m rid now = (m, false) ∧
      (cancel_run_route m rid now).2 = .error "Run cannot be canceled") := by
  have h' : m.active_runs.find? (fun x => decide (x.run_id = rid)) = some r := h
  have hid : r.run_id = rid :=
    of_decide_eq_true (List.find?_some (p := fun x : RunState => decide (x.run_id = rid)) h')
  constructor
  · intro hact
    have hfind2 := find?_updateFirst _
      (fun x => { x with status := "canceled", completed_at := some now })
      r (decide_eq_true (show _ = rid from hid)) m.active_runs h'
    have hc1 : (cancel_run m rid now).2 = true := by
      simp [cancel_run, h, hact]
    have hget1 : get_run (cancel_run m rid now).1 rid =
        some { r with status := "canceled", completed_at := some now } := by
      simp only [cancel_run, h, hact]
      exact hfind2
    have hc2 : cancel_run (cancel_run m rid now).1 rid now2 = ((cancel_run m rid now).1, false) := by
      generalize hm1 : (cancel_run m rid now).1 = m1 at hget1 ⊢
      simp [cancel_run, hget1]
      decide
    refine ⟨hc1, hget1, hc2, ?_⟩
    simp [cancel_run_route, hc2]
  · intro hterm
    have hact : isActiveStatus r.status = false := terminal_not_active _ hterm
    have hc : cancel_run m rid now = (m, false) := by
      simp [cancel_run, h, hact]
    exact ⟨hc, by simp [cancel_run_route, hc]⟩

/-- C3 witness: first cancellation of the concrete running run succeeds, the
second fails; cancellation of the concrete canceled run fails outright. -/
theorem claim_C3_cancel_idempotent_failing_witness :
    ((cancel_run regX "x" 9).2 = true ∧
      get_run (cancel_run regX "x" 9).1 "x" =
        some { runX with status := "canceled", completed_at := some 9 } ∧
      cancel_run (cancel_run regX "x" 9).1 "x" 10 = ((cancel_run regX "x" 9).1, false) ∧
      (cancel_run_route (cancel_run regX "x" 9).1 "x" 10).2 =
        .error "Run cannot be canceled") ∧
    (cancel_run regCanceled "c1" 11 = (regCanceled, false) ∧
      (cancel_run_route regCanceled "c1" 11).2 = .error "Run cannot be canceled") :=
  ⟨(claim_C3_cancel_idempotent_failing regX "x" runX 9 10 (by decide)).1 (by decide),
   (claim_C3_cancel_idempotent_failing regCanceled "c1" runCanceled 11 12 (by decide)).2
     (by decide)⟩

/-- C4: progress normalization is the total, deterministic pure function
`normalize_event` of the raw (stage, text) pair, yielding exactly one
normalized (stage, status) pair per raw callback; the free text is
classified into exactly one of `started`, `completed`, `failed` by
case-insensitive substring matching, text containing none of the known
vocabulary defaults to `started`, and the raw callback
("align", "Alignment completed successfully") normalizes to
("preprocess", "completed"). -/
theorem claim_C4_normalization_total (step text : String) :
    ((normalize_event step text).2 = "started" ∨ (normalize_event step text).2 = "completed" ∨
      (normalize_event step text).2 = "failed") ∧
    ((∀ kw ∈ (["started", "fetching", "transcoding", "transcribing", "completed",
        "using existing", "failed", "error"] : List String),
        strContains (lowerString text) kw = false) →
      (normalize_event step text).2 = "started") ∧
    normalize_event "align" "Alignment completed successfully" = ("preprocess", "completed") := by
  refine ⟨?_, ?_, ?_⟩
  · simp only [normalize_event, normalize_status]
    split_ifs <;> simp
  · intro hkw
    have h1 := hkw "started" (by simp)
    have h2 := hkw "fetching" (by simp)
    have h3 := hkw "transcoding" (by simp)
    have h4 := hkw "transcribing" (by simp)
    have h5 := hkw "completed" (by simp)
    have h6 := hkw "using existing" (by simp)
    have h7 := hkw "failed" (by simp)
    have h8 := hkw "error" (by simp)
    simp [normalize_event, normalize_status, h1, h2, h3, h4, h5, h6, h7, h8]
  · decide

/-- C4 witness: an unrecognized text defaults to `started`, alongside the two
hypothesis-free conjuncts at the same input. -/
theorem claim_C4_normalization_total_witness :
    ((normalize_event "foo" "Zork 42").2 = "started" ∨
      (normalize_event "foo" "Zork 42").2 = "completed" ∨
      (normalize_event "foo" "Zork 42").2 = "failed") ∧
    (normalize_event "foo" "Zork 42").2 = "started" ∧
    normalize_event "align" "Alignment completed successfully" = ("preprocess", "completed") :=
  ⟨(claim_C4_normalization_total "foo" "Zork 42").1,
   (claim_C4_normalization_total "foo" "Zork 42").2.1 (by decide),
   (claim_C4_normalization_total "foo" "Zork 42").2.2⟩

/-- C5: when the pipeline call returns a result for a running run, the run's
status becomes `completed` if and only if the result's error list is empty
and `failed` if and only if it is non-empty, with the result stored and the
completion timestamp set; when the pipeline call raises an unexpected fault,
the run's status becomes `failed` with the error message recorded on the
record. -/
theorem claim_C5_outcome_status (m : RunManager) (rid : String) (r : RunState)
    (res : PipelineResult) (msg : String) (nurl : Option String) (now : Nat)
    (h : get_run m rid = some r) (_hrun : r.status = "running") :
    ((get_run (execute_pipeline_outcome m rid (.ok res) nurl now) rid).map RunState.status =
        some "completed" ↔ res.errors = []) ∧
    ((get_run (execute_pipeline_outcome m rid (.ok res) nurl now) rid).map RunState.status =
        some "failed" ↔ res.errors ≠ []) ∧
    (get_run (execute_pipeline_outcome m rid (.ok res) nurl now) rid).map RunState.result =
      some (some res) ∧
    (get_run (execute_pipeline_outcome m rid (.ok res) nurl now) rid).map
      RunState.completed_at = some (some now) ∧
    get_run (execute_pipeline_outcome m rid (.fault msg) nurl now) rid =
      some { r with error := some msg, status := "failed", completed_at := some now } := by
  have h' : m.active_runs.find? (fun x => decide (x.run_id = rid)) = some r := h
  have hid : r.run_id = rid :=
    of_decide_eq_true (List.find?_some (p := fun x : RunState => decide (x.run_id = rid)) h')
  have hres : get_run (set_run_result m rid res now) rid =
      some
        { r with
          result := some res,
          status := if res.errors.isEmpty then "completed" else "failed",
          completed_at := some now } :=
    find?_updateFirst _
      (fun x =>
        { x with
          result := some res,
          status := if res.errors.isEmpty then "completed" else "failed",
          completed_at := some now })
      r (decide_eq_true (show _ = rid from hid)) m.active_runs h'
  have hok : (get_run (execute_pipeline_outcome m rid (.ok res) nurl now) rid).map
        RunState.status = some (if res.errors.isEmpty then "completed" else "failed") ∧
      (get_run (execute_pipeline_outcome m rid (.ok res) nurl now) rid).map
        RunState.result = some (some res) ∧
      (get_run (execute_pipeline_outcome m rid (.ok res) nurl now) rid).map
        RunState.completed_at = some (some now) := by
    match nurl with
    | none =>
      refine ⟨?_, ?_, ?_⟩ <;> simp [execute_pipeline_outcome, hres]
    | some u =>
      have hres2 : get_run (set_notion_url (set_run_result m rid res now) rid u) rid =
          some
            { r with
              result := some res,
              status := if res.errors.isEmpty then "completed" else "failed",
              completed_at := some now,
              notion_url := some u } := by
        have := find?_updateFirst (fun x => decide (x.run_id = rid))
          (fun x => { x with notion_url := some u })
          ({ r with
            result := some res,
            status := if res.errors.isEmpty then "completed" else "failed",
            completed_at := some now })
          (decide_eq_true (show _ = rid from hid))
          (set_run_result m rid res now).active_runs hres
        exact this
      refine ⟨?_, ?_, ?_⟩ <;> simp [execute_pipeline_outcome, hres2]
  refine ⟨?_, ?_, hok.2.1, hok.2.2, ?_⟩
  · rw [hok.1]
    by_cases he : res.errors = []
    · simp [he]
    · have : res.errors.isEmpty = false := by
        simpa [List.isEmpty_iff] using he
      simp [this, he]
  · rw [hok.1]
    by_cases he : res.errors = []
    · simp [he]
    · have : res.errors.isEmpty = false := by
        simpa [List.isEmpty_iff] using he
      simp [this, he]
  · exact find?_updateFirst _
      (fun x => { x with error := some msg, status := "failed", completed_at := some now })
      r (decide_eq_true (show _ = rid from hid)) m.active_runs h'

/-- C5 witness: the two outcomes at the concrete running run, once with an
empty and once with a non-empty error list. -/
theorem claim_C5_outcome_status_witness :
    (((get_run (execute_pipeline_outcome regX "x" (.ok resOk) none 9) "x").map
          RunState.status = some "completed" ↔ resOk.errors = []) ∧
      ((get_run (execute_pipeline_outcome regX "x" (.ok resOk) none 9) "x").map
          RunState.status = some "failed" ↔ resOk.errors ≠ []) ∧
      (get_run (execute_pipeline_outcome regX "x" (.ok resOk) none 9) "x").map
        RunState.result = some (some resOk) ∧
      (get_run (execute_pipeline_outcome regX "x" (.ok resOk) none 9) "x").map
        RunState.completed_at = some (some 9) ∧
      get_run (execute_pipeline_outcome regX "x" (.fault "boom") none 9) "x" =
        some { runX with error := some "boom", status := "failed", completed_at := some 9 }) ∧
    ((get_run (execute_pipeline_outcome regX "x" (.ok resBad) none 9) "x").map
        RunState.status = some "failed" ↔ resBad.errors ≠ []) :=
  ⟨claim_C5_outcome_status regX "x" runX resOk "boom" none 9 (by decide) (by decide),
   (claim_C5_outcome_status regX "x" runX resBad "boom" none 9 (by decide) (by decide)).2.1⟩

theorem length_filter_updateFirst (p q : RunState → Bool) (f : RunState → RunState)
    (hq : ∀ x, p x = true → q (f x) = false) (l : List RunState) (r : RunState)
    (h : l.find? p = some r) (hqr : q r = true) :
    ((updateFirst p f l).filter q).length + 1 = (l.filter q).length := by
  induction l with
  | nil => simp at h
  | cons x xs ih =>
    by_cases hx : p x = true
    · rw [List.find?_cons_of_pos _ hx] at h
      obtain rfl : x = r := Option.some.inj h
      simp [updateFirst, if_pos hx, List.filter_cons, hq x hx, hqr]
    · rw [List.find?_cons_of_neg _ hx] at h
      simp only [updateFirst, if_neg hx, List.filter_cons]
      by_cases hqx : q x = true
      · simp only [hqx, if_pos]
        have := ih h
        simp only [List.length_cons]
        omega
      · simp only [Bool.not_eq_true] at hqx
        simp only [hqx]
        exact ih h

/-- C1: creating a run fails with the capacity error if and only if the
number of records whose status is `pending` or `running` has already reached
the configured ceiling `max_concurrent`; otherwise it succeeds, inserts a new
record with the fresh identifier, status `pending` and empty progress at the
end of the registry, and returns that identifier; and once one of the active
runs at a full registry reaches a terminal state, the next admission attempt
succeeds. -/
theorem claim_C1_admission_gate (m : RunManager) (cfg : PipelineConfig) (newId : String)
    (now : Nat) :
    (exceptOk (create_run m cfg newId now) = false ↔
      m.max_concurrent ≤ activeCount m) ∧
    (activeCount m < m.max_concurrent → newId ∉ m.active_runs.map RunState.run_id →
      create_run m cfg newId now =
        .ok ({ m with active_runs := m.active_runs ++
          [{ run_id := newId, config := cfg, status := "pending", progress := [],
             result := none, error := none, started_at := now, completed_at := none,
             notion_url := none }] }, newId)) ∧
    (∀ (r : RunState) (term : String), activeCount m = m.max_concurrent →
      get_run m r.run_id = some r → isActiveStatus r.status = true →
      isTerminalStatus term = true →
      exceptOk (create_run (update_run_status m r.run_id term now) cfg newId now) = true) := by
  refine ⟨?_, ?_, ?_⟩
  · by_cases hc : m.max_concurrent ≤ activeCount m
    · simp [create_run, hc, exceptOk]
    · simp [create_run, hc, exceptOk]
  · intro h1 h2
    have hany : m.active_runs.any (fun x => decide (x.run_id = newId)) = false := by
      rw [List.any_eq_false]
      intro x hx
      simp only [decide_eq_true_eq]
      exact fun he => h2 (List.mem_map.mpr ⟨x, hx, he⟩)
    have hnot : ¬ (m.max_concurrent ≤ activeCount m) := Nat.not_le.mpr h1
    simp [create_run, hnot, registrySet, hany]
  · intro r term hfull hget hact hterm
    have hkey := length_filter_updateFirst
      (fun y : RunState => decide (y.run_id = r.run_id))
      (fun y : RunState => isActiveStatus y.status)
      (fun y : RunState =>
        { y with
          status := term,
          completed_at := if isTerminalStatus term then some now else y.completed_at })
      (fun _ _ => terminal_not_active term hterm)
      m.active_runs r hget hact
    have hcnt : activeCount (update_run_status m r.run_id term now) + 1 = activeCount m := hkey
    have hnot : ¬ (m.max_concurrent ≤ activeCount (update_run_status m r.run_id term now)) := by
      omega
    have hmc : (update_run_status m r.run_id term now).max_concurrent = m.max_concurrent := rfl
    simp [create_run, hmc, hnot, exceptOk]

/-- C1 witness: at the full concrete registry admission fails; on the empty
registry it succeeds and appends the pending record; after the active run is
marked completed the next admission succeeds. -/
theorem claim_C1_admission_gate_witness :
    (exceptOk (create_run regX cfg0 "n1" 7) = false ↔
      regX.max_concurrent ≤ activeCount regX) ∧
    create_run regEmpty cfg0 "n1" 7 =
      .ok ({ regEmpty with active_runs := regEmpty.active_runs ++
        [{ run_id := "n1", config := cfg0, status := "pending", progress := [],
           result := none, error := none, started_at := 7, completed_at := none,
           notion_url := none }] }, "n1") ∧
    exceptOk (create_run (update_run_status regX "x" "completed" 9) cfg0 "n1" 9) = true :=
  ⟨(claim_C1_admission_gate regX cfg0 "n1" 7).1,
   (claim_C1_admission_gate regEmpty cfg0 "n1" 7).2.1 (by decide) (by decide),
   (claim_C1_admission_gate regX cfg0 "n1" 9).2.2 runX "completed" (by decide) (by decide)
     (by decide) (by decide)⟩

/-- C6: appending a record to the history store replaces (never duplicates)
any existing record with the same identifier, places the appended record at
the front, and truncates the store to `max_history`; in particular appending
a fresh record to a store of distinct ids already at capacity leaves exactly
`max_history` records with the oldest absent and the newest present. -/
theorem claim_C6_history_eviction (history : List RunState) (run : RunState) (maxH : Nat)
    (hpos : 0 < maxH) :
    (save_to_history history run maxH).filter (fun r => r.run_id = run.run_id) = [run] ∧
    (save_to_history history run maxH).head? = some run ∧
    (save_to_history history run maxH).length ≤ maxH ∧
    (history.length = maxH → (history.map RunState.run_id).Nodup →
      run.run_id ∉ history.map RunState.run_id →
      ∀ (hne : history ≠ []),
        (save_to_history history run maxH).length = maxH ∧
        run ∈ save_to_history history run maxH ∧
        history.getLast hne ∉ save_to_history history run maxH) := by
  obtain ⟨k, rfl⟩ : ∃ k, maxH = k + 1 := ⟨maxH - 1, by omega⟩
  refine ⟨?_, ?_, ?_, ?_⟩
  · rw [save_to_history, List.take_succ_cons, List.filter_cons]
    have hrun : decide (run.run_id = run.run_id) = true := by simp
    rw [if_pos hrun]
    congr 1
    rw [List.filter_eq_nil_iff]
    intro a ha
    have hmem := List.of_mem_filter ((List.take_sublist _ _).subset ha)
    simpa using hmem
  · rw [save_to_history, List.take_succ_cons]
    rfl
  · rw [save_to_history]
    simpa using List.length_take_le (k + 1) _
  · intro hlen hnd hfresh hne
    have hfilter : history.filter (fun r => r.run_id ≠ run.run_id) = history := by
      rw [List.filter_eq_self]
      intro a ha
      simp only [decide_eq_true_eq]
      exact fun he => hfresh (he ▸ List.mem_map_of_mem RunState.run_id ha)
    have hsave : save_to_history history run (k + 1) = run :: history.take k := by
      rw [save_to_history, hfilter, List.take_succ_cons]
    refine ⟨?_, ?_, ?_⟩
    · rw [hsave]
      simp [List.length_take, hlen]
    · rw [hsave]; exact List.mem_cons_self _ _
    · rw [hsave]
      intro hmem
      rcases List.mem_cons.mp hmem with heq | hmem2
      · exact hfresh (heq ▸ List.mem_map_of_mem RunState.run_id (List.getLast_mem hne))
      · have hnodup : history.Nodup := List.Nodup.of_map _ hnd
        have hdecomp := List.dropLast_append_getLast hne
        have hdl : history.dropLast = history.take k := by
          rw [List.dropLast_eq_take, hlen]
          norm_num
        have : history.getLast hne ∉ history.dropLast := by
          have hnd2 : (history.dropLast ++ [history.getLast hne]).Nodup := by
            rw [hdecomp]; exact hnodup
          have hdisj := (List.nodup_append.mp hnd2).2.2
          intro hin
          exact hdisj hin (List.mem_singleton_self _)
        exact this (hdl ▸ hmem2)

/-- C6 witness: appending a fourth distinct run to a store of three records
at capacity three keeps exactly three records, evicting the oldest. -/
theorem claim_C6_history_eviction_witness :
    (save_to_history [runA3, runB2, runC1] runD4 3).filter
      (fun r => r.run_id = runD4.run_id) = [runD4] ∧
    (save_to_history [runA3, runB2, runC1] runD4 3).head? = some runD4 ∧
    (save_to_history [runA3, runB2, runC1] runD4 3).length ≤ 3 ∧
    ((save_to_history [runA3, runB2, runC1] runD4 3).length = 3 ∧
      runD4 ∈ save_to_history [runA3, runB2, runC1] runD4 3 ∧
      ([runA3, runB2, runC1] : List RunState).getLast (by decide) ∉
        save_to_history [runA3, runB2, runC1] runD4 3) :=
  ⟨(claim_C6_history_eviction [runA3, runB2, runC1] runD4 3 (by decide)).1,
   (claim_C6_history_eviction [runA3, runB2, runC1] runD4 3 (by decide)).2.1,
   (claim_C6_history_eviction [runA3, runB2, runC1] runD4 3 (by decide)).2.2.1,
   (claim_C6_history_eviction [runA3, runB2, runC1] runD4 3 (by decide)).2.2.2
     (by decide) (by decide) (by decide) (by decide)⟩

/-- C7: loading history never raises: an unreadable or corrupt store loads as
the empty list, a record whose parse fails is skipped while every remaining
well-formed record is still returned. -/
theorem claim_C7_load_skips_bad (l1 l2 : List RawRun) (bad : RawRun)
    (hbad : dict_to_run_state bad = none) :
    load_history none = [] ∧
    load_history (some (l1 ++ bad :: l2)) = load_history (some (l1 ++ l2)) ∧
    (∀ (raws : List RawRun) (d : RawRun) (s : RunState), d ∈ raws →
      dict_to_run_state d = some s → s ∈ load_history (some raws)) := by
  refine ⟨rfl, ?_, ?_⟩
  · simp [load_history, List.filterMap_append, List.filterMap_cons, hbad]
  · intro raws d s hd hs
    simp only [load_history]
    exact List.mem_filterMap.mpr ⟨d, hd, hs⟩

/-- C7 witness: a store holding one well-formed and one malformed record
loads exactly the well-formed one; an unreadable store loads as empty. -/
theorem claim_C7_load_skips_bad_witness :
    dict_to_run_state rawBad = none ∧
    load_history none = [] ∧
    load_history (some ([rawGood] ++ rawBad :: [])) = load_history (some ([rawGood] ++ [])) ∧
    goodParsed ∈ load_history (some [rawGood, rawBad]) :=
  ⟨by decide,
   (claim_C7_load_skips_bad [rawGood] [] rawBad (by decide)).1,
   (claim_C7_load_skips_bad [rawGood] [] rawBad (by decide)).2.1,
   (claim_C7_load_skips_bad [rawGood] [] rawBad (by decide)).2.2 [rawGood, rawBad] rawGood
     goodParsed (by decide) (by decide)⟩

theorem dedup_sublist (l : List RunState) : ∀ seen, List.Sublist (dedupById seen l) l := by
  induction l with
  | nil => intro seen; simp [dedupById]
  | cons x xs ih =>
    intro seen
    rw [dedupById]
    by_cases hx : x.run_id ∈ seen
    · rw [if_pos hx]; exact (ih seen).cons _
    · rw [if_neg hx]; exact (ih _).cons₂ _

theorem dedup_mem_spec (r : RunState) (l : List RunState) : ∀ seen, r ∈ dedupById seen l →
    r.run_id ∉ seen ∧ l.find? (fun x => decide (x.run_id = r.run_id)) = some r := by
  induction l with
  | nil => intro seen h; simp [dedupById] at h
  | cons x xs ih =>
    intro seen h
    rw [dedupById] at h
    by_cases hx : x.run_id ∈ seen
    · rw [if_pos hx] at h
      obtain ⟨hns, hfind⟩ := ih seen h
      refine ⟨hns, ?_⟩
      have hxr : ¬ ((fun y : RunState => decide (y.run_id = r.run_id)) x = true) := by
        simp only [decide_eq_true_eq]
        intro he
        exact hns (he ▸ hx)
      rw [List.find?_cons_of_neg (p := fun y : RunState => decide (y.run_id = r.run_id)) _ hxr]
      exact hfind
    · rw [if_neg hx] at h
      rcases List.mem_cons.mp h with rfl | h2
      · exact ⟨hx, List.find?_cons_of_pos _ (by simp)⟩
      · obtain ⟨hns, hfind⟩ := ih (x.run_id :: seen) h2
        have hxid : x.run_id ≠ r.run_id := fun he => hns (he ▸ List.mem_cons_self _ _)
        refine ⟨fun hs => hns (List.mem_cons_of_mem _ hs), ?_⟩
        have hxr : ¬ ((fun y : RunState => decide (y.run_id = r.run_id)) x = true) := by
          simpa using hxid
        rw [List.find?_cons_of_neg (p := fun y : RunState => decide (y.run_id = r.run_id)) _ hxr]
        exact hfind

theorem dedup_nodup_ids (l : List RunState) : ∀ seen,
    ((dedupById seen l).map RunState.run_id).Nodup := by
  induction l with
  | nil => intro seen; simp [dedupById]
  | cons x xs ih =>
    intro seen
    rw [dedupById]
    by_cases hx : x.run_id ∈ seen
    · rw [if_pos hx]; exact ih seen
    · rw [if_neg hx]
      rw [List.map_cons, List.nodup_cons]
      refine ⟨?_, ih _⟩
      intro hmem
      obtain ⟨y, hy, hyid⟩ := List.mem_map.mp hmem
      have hns := (dedup_mem_spec y xs (x.run_id :: seen) hy).1
      exact hns (by rw [hyid]; exact List.mem_cons_self _ _)

theorem find?_orderedInsert_newest (p : RunState → Bool) (a : RunState) (hpa : p a = true)
    (s : List RunState) (hs : ∀ y ∈ s, p y = true → runLe a y) :
    (List.orderedInsert runLe a s).find? p = some a := by
  induction s with
  | nil => simp [List.orderedInsert, hpa]
  | cons b l ih =>
    by_cases hab : runLe a b
    · have he : List.orderedInsert runLe a (b :: l) = a :: b :: l := by
        simp [List.orderedInsert, hab]
      rw [he]
      exact List.find?_cons_of_pos _ hpa
    · have he : List.orderedInsert runLe a (b :: l) = b :: List.orderedInsert runLe a l := by
        simp [List.orderedInsert, hab]
      rw [he]
      have hpb : ¬ p b = true := fun hpb => hab (hs b (List.mem_cons_self _ _) hpb)
      rw [List.find?_cons_of_neg _ hpb]
      exact ih (fun y hy => hs y (List.mem_cons_of_mem _ hy))

theorem find?_orderedInsert_keep (p : RunState → Bool) (a x : RunState)
    (hx : p x = true → x = a) (s : List RunState) (h : s.find? p = some a) :
    (List.orderedInsert runLe x s).find? p = some a := by
  induction s with
  | nil => simp at h
  | cons b l ih =>
    by_cases hxb : runLe x b
    · have he : List.orderedInsert runLe x (b :: l) = x :: b :: l := by
        simp [List.orderedInsert, hxb]
      rw [he]
      by_cases hpx : p x = true
      · obtain rfl := hx hpx
        exact List.find?_cons_of_pos _ hpx
      · rw [List.find?_cons_of_neg _ hpx]
        exact h
    · have he : List.orderedInsert runLe x (b :: l) = b :: List.orderedInsert runLe x l := by
        simp [List.orderedInsert, hxb]
      rw [he]
      by_cases hpb : p b = true
      · rw [List.find?_cons_of_pos _ hpb] at h ⊢
        exact h
      · rw [List.find?_cons_of_neg _ hpb] at h ⊢
        exact ih h

theorem find?_insertionSort_registry (p : RunState → Bool) (a : RunState) (hpa : p a = true)
    (act : List RunState) : ∀ (rest : List RunState), a ∈ act →
    (∀ x ∈ act, p x = true → x = a) → (∀ y ∈ rest, p y = true → runLe a y) →
    (List.insertionSort runLe (act ++ rest)).find? p = some a := by
  induction act with
  | nil => intro rest h; intro _ _; simp at h
  | cons x act' ih =>
    intro rest hmem huni hrest
    rw [List.cons_append, List.insertionSort]
    by_cases hmem' : a ∈ act'
    · have hfind := ih rest hmem' (fun y hy => huni y (List.mem_cons_of_mem _ hy)) hrest
      exact find?_orderedInsert_keep p a x (huni x (List.mem_cons_self _ _)) _ hfind
    · obtain rfl : x = a := by
        rcases List.mem_cons.mp hmem with h1 | h2
        · exact h1.symm
        · exact absurd h2 hmem'
      apply find?_orderedInsert_newest p x hpa
      intro y hy hpy
      have hy2 : y ∈ act' ++ rest := (List.perm_insertionSort runLe _).subset hy
      rcases List.mem_append.mp hy2 with h1 | h2
      · have hya : y = x := huni y (List.mem_cons_of_mem _ h1) hpy
        rw [hya]
        exact Nat.le_refl _
      · exact hrest y h2 hpy

/-- C8 counterexample: the registry holds a running record with id `x`
created at tick 0 and the store holds a record with the same id, status
`failed`, created at tick 5.  Both are present, yet the record returned for
id `x` is the store's copy, not the registry's — the claimed unconditional
registry precedence fails.  Moreover a limit of 0 does not truncate to 0
records: Python treats `0` as absent and substitutes `max_history`. -/
theorem claim_C8_counterexample :
    regX.active_runs.map (fun r => (r.run_id, r.status)) = [("x", "running")] ∧
    (load_history (some [rawX5])).map (fun r => (r.run_id, r.status)) = [("x", "failed")] ∧
    (list_recent_runs regX (some [rawX5]) none).map (fun r => (r.run_id, r.status)) =
      [("x", "failed")] ∧
    runX ∉ list_recent_runs regX (some [rawX5]) none ∧
    (list_recent_runs regX none (some 0)).length = 1 := by
  decide

/-- C8 amended: listing recent runs returns records merged from the live
registry and the durable store, sorted by creation time descending,
deduplicated by run identifier keeping the copy that sorts first, and
truncated to at most the effective limit (a limit of zero or none meaning
the configured `max_history`).  The registry's copy takes precedence
whenever its creation time is at least that of every store copy with the
same id — in particular when registry and store copies carry equal creation
times, as snapshots of the same run do — but a store copy with a strictly
later creation time would win, and a limit of zero does not truncate to
zero. -/
theorem claim_C8_amended (m : RunManager) (file : Option (List RawRun)) (limit : Option Nat) :
    List.Sorted runLe (list_recent_runs m file limit) ∧
    (list_recent_runs m file limit).length ≤ effectiveLimit m limit ∧
    (∀ r ∈ list_recent_runs m file limit, r ∈ m.active_runs ++ load_history file) ∧
    ((list_recent_runs m file limit).map RunState.run_id).Nodup ∧
    (∀ a ∈ m.active_runs, (∀ x ∈ m.active_runs, x.run_id = a.run_id → x = a) →
      (∀ y ∈ load_history file, y.run_id = a.run_id → y.started_at ≤ a.started_at) →
      ∀ r ∈ list_recent_runs m file limit, r.run_id = a.run_id → r = a) := by
  have hres : list_recent_runs m file limit =
      (dedupById [] (List.insertionSort runLe (m.active_runs ++ load_history file))).take
        (effectiveLimit m limit) := rfl
  have hsub2 : List.Sublist (list_recent_runs m file limit)
      (dedupById [] (List.insertionSort runLe (m.active_runs ++ load_history file))) := by
    rw [hres]; exact List.take_sublist _ _
  have hsub : List.Sublist (list_recent_runs m file limit)
      (List.insertionSort runLe (m.active_runs ++ load_history file)) :=
    hsub2.trans (dedup_sublist _ [])
  refine ⟨?_, ?_, ?_, ?_, ?_⟩
  · exact List.Pairwise.sublist hsub (List.sorted_insertionSort runLe _)
  · rw [hres]; exact List.length_take_le _ _
  · intro r hr
    exact (List.perm_insertionSort runLe _).subset (hsub.subset hr)
  · exact List.Nodup.sublist (hsub2.map RunState.run_id) (dedup_nodup_ids _ [])
  · intro a ha huni hh r hr hid
    have hr2 := hsub2.subset hr
    have hfound := (dedup_mem_spec r _ [] hr2).2
    rw [hid] at hfound
    have hM := find?_insertionSort_registry (fun x => decide (x.run_id = a.run_id)) a (by simp)
      m.active_runs (load_history file) ha
      (fun x hx hd => huni x hx (of_decide_eq_true hd))
      (fun y hy hd => hh y hy (of_decide_eq_true hd))
    exact Option.some.inj (hfound.symm.trans hM)

/-- C8 amended witness: a concrete registry of one running record merged
with a store of one other record, all five conjuncts discharged at that
state. -/
theorem claim_C8_amended_witness :
    List.Sorted runLe (list_recent_runs regX (some [rawGood]) none) ∧
    (list_recent_runs regX (some [rawGood]) none).length ≤
      effectiveLimit regX (none : Option Nat) ∧
    (∀ r ∈ list_recent_runs regX (some [rawGood]) none,
      r ∈ regX.active_runs ++ load_history (some [rawGood])) ∧
    ((list_recent_runs regX (some [rawGood]) none).map RunState.run_id).Nodup ∧
    (∀ r ∈ list_recent_runs regX (some [rawGood]) none, r.run_id = runX.run_id → r = runX) :=
  ⟨(claim_C8_amended regX (some [rawGood]) none).1,
   (claim_C8_amended regX (some [rawGood]) none).2.1,
   (claim_C8_amended regX (some [rawGood]) none).2.2.1,
   (claim_C8_amended regX (some [rawGood]) none).2.2.2.1,
   (claim_C8_amended regX (some [rawGood]) none).2.2.2.2 runX (by decide) (by decide)
     (by decide)⟩
